import Mathlib

/-!
Shallow embedding of the Read-meter ingestion-and-query engine (src/app.py),
together with the schema initialiser (src/init_db.py) slice used by the
schema-idempotence property.

Modelling conventions:
* Time is modelled at one-second granularity (microseconds are dropped; no
  claim depends on sub-second behaviour).
* A stored timestamp string is modelled by `Ts`: `Ts.iso` stands for a
  canonically rendered ISO-8601 text (the shape `datetime.isoformat()`
  produces and both `datetime.fromisoformat` and SQLite's date functions
  parse), `Ts.junk s` stands for a string those parsers reject.
* JSON numbers are modelled by `ℚ` (the claims are about data plumbing, not
  float arithmetic); a field that is absent or JSON-null reads as `none`,
  mirroring Python's `dict.get`.
* Fallible effects (JSON decoding, the SQLite insert) are explicit: the
  environment's insert outcome is a boolean parameter and exceptions are
  `Except` values.
-/

namespace ReadMeter

/-- Gregorian leap-year test, as in Python's `datetime` and SQLite. -/
def isLeap (y : Nat) : Bool := (y % 4 == 0 && y % 100 != 0) || y % 400 == 0

/-- Length of a month, as validated by `datetime.fromisoformat`. -/
def daysInMonth (y mo : Nat) : Nat :=
  if mo = 2 then (if isLeap y then 29 else 28)
  else if mo = 4 ∨ mo = 6 ∨ mo = 9 ∨ mo = 11 then 30 else 31

/-- Days since 1970-01-01 of a civil date (standard civil-calendar algorithm). -/
def daysFromCivil (y : Int) (m d : Nat) : Int :=
  let yy : Int := if m ≤ 2 then y - 1 else y
  let era : Int := Int.fdiv yy 400
  let yoe : Int := yy - era * 400
  let mp : Int := (Int.ofNat m + 9) % 12
  let doy : Int := (153 * mp + 2) / 5 + Int.ofNat d - 1
  let doe : Int := yoe * 365 + yoe / 4 - yoe / 100 + doy
  era * 146097 + doe - 719468

/-- Civil date of a day count since 1970-01-01 (inverse of `daysFromCivil`). -/
def civilFromDays (z : Int) : Int × Nat × Nat :=
  let zz : Int := z + 719468
  let era : Int := Int.fdiv zz 146097
  let doe : Nat := (zz - era * 146097).toNat
  let yoe : Nat := (doe - doe / 1460 + doe / 36524 - doe / 146096) / 365
  let doy : Nat := doe - (365 * yoe + yoe / 4 - yoe / 100)
  let mp : Nat := (5 * doy + 2) / 153
  let d : Nat := doy - (153 * mp + 2) / 5 + 1
  let m : Nat := if mp < 10 then mp + 3 else mp - 9
  (era * 400 + Int.ofNat yoe + (if m ≤ 2 then 1 else 0), m, d)

/-- Naive wall-clock seconds since the epoch of a civil date-time. -/
def encodeSecs (y mo d h mi s : Nat) : Int :=
  daysFromCivil (Int.ofNat y) mo d * 86400 + Int.ofNat (h * 3600 + mi * 60 + s)

/-- Civil date-time of a wall-clock second count: `(y, mo, d, h, mi, s)`. -/
def decodeSecs (n : Int) : Int × Nat × Nat × Nat × Nat × Nat :=
  let day := Int.fdiv n 86400
  let sod := (n - day * 86400).toNat
  let c := civilFromDays day
  (c.1, c.2.1, c.2.2, sod / 3600, sod % 3600 / 60, sod % 60)

/-- Time-zone suffix of a stored ISO timestamp text. -/
inductive Tz
  | naive
  | zulu
  | offMin (minutes : Int)
deriving DecidableEq, Repr

/-- A stored timestamp value (the `ts` column / payload field `ts`).
`iso` is a canonically rendered ISO-8601 text; `junk` is any other string. -/
inductive Ts
  | iso (y mo d h mi s : Nat) (tz : Tz)
  | junk (raw : String)
deriving DecidableEq, Repr

/-- Component validity enforced by `datetime.fromisoformat` (and SQLite). -/
def Ts.valid : Ts → Bool
  | .iso y mo d h mi s tz =>
      1 ≤ y && y ≤ 9999 && 1 ≤ mo && mo ≤ 12 && 1 ≤ d && d ≤ daysInMonth y mo &&
      h ≤ 23 && mi ≤ 59 && s ≤ 59 &&
      (match tz with
       | .offMin m => m.natAbs ≤ 1439
       | _ => true)
  | .junk _ => false

/-- Offset carried by the suffix, in seconds (`none` = naive). -/
def Tz.offsetSecs : Tz → Option Int
  | .naive => none
  | .zulu => some 0
  | .offMin m => some (60 * m)

/-- Left-pad a decimal rendering with zeros to width `w`. -/
def padNum (w n : Nat) : String :=
  let s := toString n
  String.mk (List.replicate (w - s.length) '0') ++ s

def renderDate (y mo d : Nat) : String :=
  padNum 4 y ++ "-" ++ padNum 2 mo ++ "-" ++ padNum 2 d

def Tz.render : Tz → String
  | .naive => ""
  | .zulu => "Z"
  | .offMin m =>
      (if m < 0 then "-" else "+") ++ padNum 2 (m.natAbs / 60) ++ ":" ++ padNum 2 (m.natAbs % 60)

/-- The stored string itself (used for SQLite's TEXT ordering and as the raw
fallback value of the display conversion). -/
def Ts.render : Ts → String
  | .iso y mo d h mi s tz =>
      renderDate y mo d ++ "T" ++ padNum 2 h ++ ":" ++ padNum 2 mi ++ ":" ++ padNum 2 s ++ tz.render
  | .junk raw => raw

/-- Result of `datetime.fromisoformat`: naive wall-clock seconds plus the
optional zone offset. -/
structure PyDT where
  secs : Int
  off : Option Int
deriving DecidableEq, Repr

/-- `_parse_iso_lenient` (src/app.py lines 44-49): strip, map a trailing `Z`
to `+00:00`, then `datetime.fromisoformat`; `none` models the raised error. -/
def parseIsoLenient : Ts → Option PyDT
  | t@(.iso y mo d h mi s tz) =>
      if t.valid then some ⟨encodeSecs y mo d h mi s, tz.offsetSecs⟩ else none
  | .junk _ => none

/-- Python truthiness of the value read from the `ts` slot: the only falsy
string is the empty one. -/
def tsFalsy : Ts → Bool
  | .junk "" => true
  | _ => false

/-- `datetime.utcnow().isoformat()` at wall-clock second `n`: a naive
canonical ISO text. -/
def isoOfSecs (n : Int) : Ts :=
  let c := decodeSecs n
  .iso c.1.toNat c.2.1 c.2.2.1 c.2.2.2.1 c.2.2.2.2.1 c.2.2.2.2.2 .naive

/-- A displayed timestamp: either the raw stored string passed through
unchanged (parse-failure fallback) or a zone-free `YYYY-MM-DD HH:MM:SS`
rendering of a wall-clock instant, identified by its second count. -/
inductive Display
  | raw (t : Ts)
  | fmt (secs : Int)
deriving DecidableEq, Repr

/-- `to_th_iso` (src/app.py lines 32-42): parse leniently; on failure return
the input unchanged; on success add 7 hours (25200 s) to the wall clock and
format without zone suffix. -/
def to_th_iso (t : Ts) : Display :=
  match parseIsoLenient t with
  | none => .raw t
  | some dt => .fmt (dt.secs + 25200)

/-- One stored reading: the seven non-id columns of the `readings` table
(src/app.py lines 88-99).  The in-memory `latest_reading` dict holds exactly
the same seven keys, so the same structure models a cache record.  Note the
table (and hence this structure) has no `energy` column. -/
structure Row where
  ts : Ts
  voltage : Option ℚ
  current : Option ℚ
  power : Option ℚ
  energy_kwh : Option ℚ
  frequency : Option ℚ
  pf : Option ℚ
deriving DecidableEq, Repr

/-- A decoded JSON-object payload, as read through Python's `dict` API.
For the numeric fields and `ts` only `data.get(k)` is ever consulted, which
conflates "key absent" with "key null", so `none` covers both.  For `energy`
the code also tests `"energy" in data`, so key membership is tracked
separately from the value `data.get("energy")` reads. -/
structure Payload where
  ts : Option Ts
  voltage : Option ℚ
  current : Option ℚ
  power : Option ℚ
  frequency : Option ℚ
  pf : Option ℚ
  energyKwh : Option ℚ
  energyMem : Bool
  energy : Option ℚ
deriving DecidableEq, Repr

/-- `request.get_json(silent=True) or {}` on an undecodable body: the empty
dict, every `get` returning `None`. -/
def emptyPayload : Payload :=
  { ts := none, voltage := none, current := none, power := none,
    frequency := none, pf := none, energyKwh := none, energyMem := false, energy := none }

/-- The `energy` → `energy_kwh` rename as written in `on_message`
(src/app.py lines 138-140). -/
def mqttEnergyKwh (data : Payload) : Option ℚ :=
  match data.energyKwh with
  | some v => some v
  | none => if data.energyMem then data.energy else none

/-- `ts_raw = data.get("ts") or datetime.datetime.utcnow().isoformat()`
(src/app.py line 143).  A present but Python-falsy value (empty string)
also falls back to "now". -/
def mqttTs (data : Payload) (now : Int) : Ts :=
  match data.ts with
  | some t => if tsFalsy t then isoOfSecs now else t
  | none => isoOfSecs now

/-- The row `on_message` inserts (src/app.py lines 150-159). -/
def mqttRow (data : Payload) (now : Int) : Row :=
  { ts := mqttTs data now
    voltage := data.voltage
    current := data.current
    power := data.power
    energy_kwh := mqttEnergyKwh data
    frequency := data.frequency
    pf := data.pf }

/-- The `latest_reading` dict `on_message` installs (src/app.py lines 164-173). -/
def mqttCache (data : Payload) (now : Int) : Row :=
  { ts := mqttTs data now
    voltage := data.voltage
    current := data.current
    power := data.power
    energy_kwh := mqttEnergyKwh data
    frequency := data.frequency
    pf := data.pf }

/-- The rename as written (a second time) in `api_readings`
(src/app.py lines 401-403). -/
def pushEnergyKwh (data : Payload) : Option ℚ :=
  match data.energyKwh with
  | some v => some v
  | none => if data.energyMem then data.energy else none

/-- `ts = data.get("ts") or datetime.datetime.utcnow().isoformat()`
(src/app.py line 405). -/
def pushTs (data : Payload) (now : Int) : Ts :=
  match data.ts with
  | some t => if tsFalsy t then isoOfSecs now else t
  | none => isoOfSecs now

/-- The row `api_readings` inserts (src/app.py lines 407-411). -/
def pushRow (data : Payload) (now : Int) : Row :=
  { ts := pushTs data now
    voltage := data.voltage
    current := data.current
    power := data.power
    energy_kwh := pushEnergyKwh data
    frequency := data.frequency
    pf := data.pf }

/-- The `latest_reading` dict `api_readings` installs (src/app.py lines 414-423). -/
def pushCache (data : Payload) (now : Int) : Row :=
  { ts := pushTs data now
    voltage := data.voltage
    current := data.current
    power := data.power
    energy_kwh := pushEnergyKwh data
    frequency := data.frequency
    pf := data.pf }

/-- Shared mutable state of the engine: the durable `readings` table in
insertion order, and the `latest_reading` slot (`none` = empty dict). -/
structure SysState where
  store : List Row
  cache : Option Row
deriving DecidableEq, Repr

/-- An inbound MQTT message: either its payload decodes to a JSON object or
decoding fails (`json.loads` / `.decode` raising, or a non-object value on
which the subsequent `data.get` raises). -/
inductive Msg
  | good (data : Payload)
  | bad (raw : String)
deriving DecidableEq, Repr

def decodeMsg : Msg → Except String Payload
  | .good data => .ok data
  | .bad raw => .error raw

/-- The body of `on_message`'s `try:` block (src/app.py lines 133-174).
`insertOk = false` models the SQLite insert (or commit) raising; the insert
failing durably changes nothing, and the exception skips the cache update
that follows it in the same block. -/
def onMessageTry (st : SysState) (msg : Msg) (now : Int) (insertOk : Bool) :
    Except String SysState :=
  match decodeMsg msg with
  | .error e => .error e
  | .ok data =>
      if insertOk then
        .ok { store := st.store ++ [mqttRow data now], cache := some (mqttCache data now) }
      else .error "DB error"

/-- `on_message` (src/app.py lines 130-177): the whole body is wrapped in
`try/except`, so every failure is logged and the handler returns normally
with the state unchanged. -/
def on_message (st : SysState) (msg : Msg) (now : Int) (insertOk : Bool) : SysState :=
  match onMessageTry st msg now insertOk with
  | .ok st' => st'
  | .error _ => st

/-- One delivered message together with its environment (arrival instant,
insert outcome). -/
structure Delivery where
  msg : Msg
  now : Int
  insertOk : Bool

/-- The MQTT listener loop: `loop_forever` invokes `on_message` once per
delivered message, strictly serially. -/
def runListener (st : SysState) : List Delivery → SysState
  | [] => st
  | d :: ds => runListener (on_message st d.msg d.now d.insertOk) ds

/-- `api_readings` (src/app.py lines 390-424).  The request body is
`request.get_json(silent=True) or {}` (`none` = undecodable body).  The
insert is not guarded by any `try:`: on failure the exception propagates to
Flask (`Except.error`), the cache update below it is skipped, and no
acknowledgement is produced; on success the handler acknowledges `ok=True`. -/
def api_readings (st : SysState) (body : Option Payload) (now : Int) (insertOk : Bool) :
    SysState × Except Unit Bool :=
  let data := body.getD emptyPayload
  if insertOk then
    ({ store := st.store ++ [pushRow data now], cache := some (pushCache data now) }, .ok true)
  else (st, .error ())

/-- The stored string a row's `ts` column holds, the key SQLite's TEXT
comparisons (`ORDER BY ts`, `MIN(ts)`) operate on. -/
def tsKey (r : Row) : String := r.ts.render

/-- A row as returned by the history/latest queries after
`d["ts"] = to_th_iso(d["ts"])` (the `SELECT` lists the seven non-id
columns). -/
structure DRow where
  ts : Display
  voltage : Option ℚ
  current : Option ℚ
  power : Option ℚ
  energy_kwh : Option ℚ
  frequency : Option ℚ
  pf : Option ℚ
deriving DecidableEq, Repr

def displayRow (r : Row) : DRow :=
  { ts := to_th_iso r.ts
    voltage := r.voltage
    current := r.current
    power := r.power
    energy_kwh := r.energy_kwh
    frequency := r.frequency
    pf := r.pf }

/-- `ORDER BY ts DESC`: `a` may precede `b` when `b`'s stored text is ≤
`a`'s (SQLite BINARY collation = code-point order on these ASCII texts). -/
def histDescRel : Row → Row → Prop := fun a b => tsKey b ≤ tsKey a

instance : DecidableRel histDescRel :=
  fun a b => inferInstanceAs (Decidable (tsKey b ≤ tsKey a))

instance : IsTotal Row histDescRel := ⟨fun a b => le_total (tsKey b) (tsKey a)⟩

instance : IsTrans Row histDescRel := ⟨fun _ _ _ hab hbc => le_trans hbc hab⟩

/-- `api_history`'s row selection (src/app.py lines 288-293):
`ORDER BY ts DESC LIMIT n`, then `rows[::-1]`. -/
def histRows (store : List Row) (n : Nat) : List Row :=
  ((List.insertionSort histDescRel store).take n).reverse

/-- `api_history` (src/app.py lines 278-297) for a store state and count. -/
def api_history (store : List Row) (n : Nat) : List DRow :=
  (histRows store n).map displayRow

/-- The `/api/realtime` response payload (src/app.py lines 327-356). -/
structure RTResp where
  ts : Display
  voltage : ℚ
  current : ℚ
  power : ℚ
  energy_kwh : ℚ
  frequency : ℚ
  pf : ℚ
  stale : Bool
  age_sec : Option Int
deriving DecidableEq, Repr

/-- The all-zero response of the `if not snap.get("ts")` branch
(src/app.py lines 327-332). -/
def noDataResp (now : Int) : RTResp :=
  { ts := to_th_iso (isoOfSecs now)
    voltage := 0, current := 0, power := 0, energy_kwh := 0, frequency := 0, pf := 0
    stale := true, age_sec := none }

/-- `api_realtime` (src/app.py lines 315-357).  `cache` is the snapshot of
`latest_reading` (`none` = still the empty dict), `now` is
`datetime.utcnow()` at second granularity.  A parse failure sets `t = now`
(age 0); ages are compared naively (`t.replace(tzinfo=None)`); stale means
`age > 8`; each numeric field is `snap.get(k) or 0` when fresh, `0` when
stale. -/
def api_realtime (cache : Option Row) (now : Int) : RTResp :=
  match cache with
  | none => noDataResp now
  | some snap =>
      if tsFalsy snap.ts then noDataResp now
      else
        let t : Int :=
          match parseIsoLenient snap.ts with
          | some dt => dt.secs
          | none => now
        let age : Int := max 0 (now - t)
        let stale : Bool := decide (8 < age)
        { ts := to_th_iso snap.ts
          voltage := if stale then 0 else (snap.voltage.getD 0)
          current := if stale then 0 else (snap.current.getD 0)
          power := if stale then 0 else (snap.power.getD 0)
          energy_kwh := if stale then 0 else (snap.energy_kwh.getD 0)
          frequency := if stale then 0 else (snap.frequency.getD 0)
          pf := if stale then 0 else (snap.pf.getD 0)
          stale := stale
          age_sec := some age }

/-- SQLite date-function view of a stored timestamp text: the civil UTC
components after normalising an explicit zone offset (SQLite converts
zoned time strings to UTC; an unparseable text yields NULL). -/
def utcParts (t : Ts) : Option (Int × Nat × Nat × Nat × Nat × Nat) :=
  match t with
  | .iso y mo d h mi s tz =>
      if (Ts.iso y mo d h mi s tz).valid then
        some (decodeSecs (encodeSecs y mo d h mi s - (tz.offsetSecs.getD 0)))
      else none
  | .junk _ => none

/-- SQLite `DATE(ts)`. -/
def sqlDate (t : Ts) : Option String :=
  (utcParts t).map fun c => renderDate c.1.toNat c.2.1 c.2.2.1

/-- SQLite `strftime('%Y', ts)`. -/
def sqlYearStr (t : Ts) : Option String :=
  (utcParts t).map fun c => padNum 4 c.1.toNat

/-- SQLite `strftime('%m', ts)`. -/
def sqlMonthStr (t : Ts) : Option String :=
  (utcParts t).map fun c => padNum 2 c.2.1

/-- The `WHERE strftime('%Y',ts)=? AND strftime('%m',ts)=?` filter of
`api_monthly`, with the bound arguments `str(year)` and `f"{month:02d}"`. -/
def monthFilter (y : Int) (m : Nat) (r : Row) : Bool :=
  sqlYearStr r.ts == some (toString y) && sqlMonthStr r.ts == some (padNum 2 m)

/-- The row SQLite's bare-column rule pairs with a lone `MIN(ts)` aggregate:
a row of the group attaining the minimal stored text. -/
def minRowBy : List Row → Option Row
  | [] => none
  | r :: rs =>
      match minRowBy rs with
      | none => some r
      | some m => if tsKey m < tsKey r then some m else some r

/-- One `/api/monthly` bucket: `DATE(ts) as day`, `MIN(ts) as ts` (display
converted), and the bare numeric columns. -/
structure DayBucket where
  day : String
  ts : Display
  voltage : Option ℚ
  current : Option ℚ
  power : Option ℚ
  energy_kwh : Option ℚ
  frequency : Option ℚ
  pf : Option ℚ
deriving DecidableEq, Repr

/-- Rows of the filtered set falling on calendar day `d`. -/
def dayRowsOf (fr : List Row) (d : String) : List Row :=
  fr.filter fun r => sqlDate r.ts == some d

/-- The aggregate output row for day `d` (none when the day has no rows). -/
def bucketOf (fr : List Row) (d : String) : Option DayBucket :=
  (minRowBy (dayRowsOf fr d)).map fun rep =>
    { day := d
      ts := to_th_iso rep.ts
      voltage := rep.voltage
      current := rep.current
      power := rep.power
      energy_kwh := rep.energy_kwh
      frequency := rep.frequency
      pf := rep.pf }

/-- `api_monthly` (src/app.py lines 359-387): filter to the requested
year/month, group by `DATE(ts)`, one bucket per day ordered ascending, each
bucket carrying `MIN(ts)` and the matching row's columns. -/
def api_monthly (store : List Row) (y : Int) (m : Nat) : List DayBucket :=
  let fr := store.filter (monthFilter y m)
  let days := fr.filterMap fun r => sqlDate r.ts
  ((List.insertionSort (· ≤ ·) days).dedup).filterMap (bucketOf fr)

/-- Column list of the `readings` table as created by
`ensure_readings_schema` (src/app.py lines 86-101). -/
def appReadingsCols : List String :=
  ["id", "ts", "voltage", "current", "power", "energy_kwh", "frequency", "pf"]

/-- Storage-engine state seen by the schema helper: the `readings` table's
column list when the table exists, its rows, and the `idx_readings_ts`
index flag. -/
structure DbState where
  readingsCols : Option (List String)
  readingsRows : List Row
  tsIndex : Bool
deriving DecidableEq, Repr

/-- `ensure_readings_schema` (src/app.py lines 86-101):
`CREATE TABLE IF NOT EXISTS` creates the (empty) table only when absent and
touches nothing otherwise; `CREATE INDEX IF NOT EXISTS` likewise. -/
def ensure_readings_schema (s : DbState) : DbState :=
  match s.readingsCols with
  | some _ => { s with tsIndex := true }
  | none => { readingsCols := some appReadingsCols, readingsRows := [], tsIndex := true }

/-! ### Shared concrete sample inputs for witnesses -/

/-- The spec's concrete scenario payload: `energy` supplied, `energy_kwh`
and `ts` absent. -/
def samplePayload : Payload :=
  { ts := none, voltage := some (441/2), current := some (6/5), power := some (1323/5),
    frequency := some 50, pf := some (49/50), energyKwh := none, energyMem := true,
    energy := some (3/100) }

/-- A stored row with a valid naive UTC timestamp (2024-01-05T10:00:00). -/
def sampleRow : Row :=
  { ts := .iso 2024 1 5 10 0 0 .naive, voltage := some (441/2), current := some (6/5),
    power := some (1323/5), energy_kwh := some (3/100), frequency := some 50,
    pf := some (49/50) }

/-! ### Claim theorems -/

/-- C6: for every decoded payload and ingestion instant, the feed-subscriber
adapter and the push-endpoint adapter produce identical normalized readings
for both the store and the cache — the same `energy` → `energy_kwh` rename
and the same substitution of the current UTC instant when `ts` is absent —
and from equal states successful ingestion leaves equal states. -/
theorem adapters_normalize_identically (data : Payload) (now : Int) :
    mqttRow data now = pushRow data now
    ∧ mqttCache data now = pushCache data now
    ∧ mqttTs data now = pushTs data now
    ∧ mqttEnergyKwh data = pushEnergyKwh data
    ∧ ∀ st : SysState, on_message st (.good data) now true = (api_readings st (some data) now true).1 :=
  ⟨rfl, rfl, rfl, rfl, fun _ => rfl⟩

/-- C2: for every payload that supplies `energy` but not `energy_kwh`, the
stored row and the cached record (on both channels) carry the payload's
`energy` value in `energy_kwh`; the `Row` type — the table's column list —
has no `energy` column at all, and the query-side display conversion passes
`energy_kwh` through unchanged (the rename happens only at ingestion). -/
theorem energy_rename_at_ingestion (data : Payload) (st : SysState) (now : Int)
    (hmem : data.energyMem = true) (habs : data.energyKwh = none) :
    (mqttRow data now).energy_kwh = data.energy
    ∧ (mqttCache data now).energy_kwh = data.energy
    ∧ (pushRow data now).energy_kwh = data.energy
    ∧ (pushCache data now).energy_kwh = data.energy
    ∧ (on_message st (.good data) now true).store = st.store ++ [mqttRow data now]
    ∧ (on_message st (.good data) now true).cache = some (mqttCache data now)
    ∧ (∀ r : Row, (displayRow r).energy_kwh = r.energy_kwh) := by
  refine ⟨?_, ?_, ?_, ?_, rfl, rfl, fun r => rfl⟩ <;>
    simp [mqttRow, mqttCache, pushRow, pushCache, mqttEnergyKwh, pushEnergyKwh, habs, hmem]

theorem energy_rename_at_ingestion_witness :
    (mqttRow samplePayload 0).energy_kwh = some (3/100)
    ∧ (pushCache samplePayload 0).energy_kwh = some (3/100) := by
  have h := energy_rename_at_ingestion samplePayload ⟨[], none⟩ 0 rfl rfl
  exact ⟨h.1, h.2.2.2.1⟩

/-- C1 counterexample: with an empty initial cache, a payload whose durable
insert fails leaves the cache empty on both channels — it does not hold the
normalized reading the claim asserts. -/
theorem insert_fail_cache_claim_false :
    (on_message ⟨[], none⟩ (.good samplePayload) 0 false).cache = none
    ∧ (on_message ⟨[], none⟩ (.good samplePayload) 0 false).cache
        ≠ some (mqttCache samplePayload 0)
    ∧ (api_readings ⟨[], none⟩ (some samplePayload) 0 false).1.cache
        ≠ some (pushCache samplePayload 0) := by
  refine ⟨rfl, ?_, ?_⟩ <;> simp [on_message, onMessageTry, decodeMsg, api_readings]

/-- C1 amended: when the durable insert fails, the cache update is NOT
attempted on either channel — the feed handler catches and logs, returning
with store and cache unchanged, and the push handler propagates the failure
with store and cache unchanged and no success acknowledgement. -/
theorem insert_fail_cache_unchanged (st : SysState) (data : Payload) (now : Int) :
    on_message st (.good data) now false = st
    ∧ (api_readings st (some data) now false).1 = st
    ∧ (api_readings st (some data) now false).2 = .error () :=
  ⟨rfl, rfl, rfl⟩

/-- C7: the feed-subscriber handler returns normally on every message —
undecodable payloads and failed inserts leave the state unchanged (logged
and discarded), a decodable payload with a successful insert performs the
normal ingestion, and in all cases the listener proceeds to the next
delivery. -/
theorem on_message_never_raises (st : SysState) (msg : Msg) (now : Int) (insertOk : Bool) :
    (on_message st msg now insertOk = st
      ∨ ∃ data, msg = .good data ∧ insertOk = true
          ∧ on_message st msg now insertOk
              = { store := st.store ++ [mqttRow data now], cache := some (mqttCache data now) })
    ∧ (∀ ds : List Delivery,
        runListener st (⟨msg, now, insertOk⟩ :: ds)
          = runListener (on_message st msg now insertOk) ds) := by
  constructor
  · cases msg with
    | bad raw => exact Or.inl rfl
    | good data =>
        cases insertOk with
        | false => exact Or.inl rfl
        | true => exact Or.inr ⟨data, rfl, rfl, rfl⟩
  · intro ds; rfl

/-- C8: `ensure_readings_schema` is idempotent — iterating it any positive
number of times equals one call — one call leaves the rows unchanged (in
any well-formed state, where a missing table has no rows), and when the
table already exists its column structure is untouched. -/
theorem ensure_readings_schema_idempotent (s : DbState) (n : Nat)
    (hwf : s.readingsCols = none → s.readingsRows = []) :
    ensure_readings_schema^[n + 1] s = ensure_readings_schema s
    ∧ (ensure_readings_schema s).readingsRows = s.readingsRows
    ∧ (∀ cols, s.readingsCols = some cols →
        (ensure_readings_schema s).readingsCols = some cols) := by
  have hid : ∀ t : DbState,
      ensure_readings_schema (ensure_readings_schema t) = ensure_readings_schema t := by
    intro t
    cases h : t.readingsCols <;> simp [ensure_readings_schema, h]
  refine ⟨?_, ?_, ?_⟩
  · induction n with
    | zero => simp
    | succ k ih =>
        rw [Function.iterate_succ_apply', ih, hid]
  · cases h : s.readingsCols with
    | none => simp [ensure_readings_schema, h, hwf h]
    | some cols => simp [ensure_readings_schema, h]
  · intro cols h
    simp [ensure_readings_schema, h]

theorem ensure_readings_schema_idempotent_witness :
    ensure_readings_schema^[2] ⟨none, [], false⟩
      = ensure_readings_schema ⟨none, [], false⟩ :=
  (ensure_readings_schema_idempotent ⟨none, [], false⟩ 1 (fun _ => rfl)).1

/-- C9: the display conversion returns an unparseable stored value raw and
unchanged (so a history query over rows with malformed timestamps still
succeeds and passes the malformed value through), and maps every parseable
value — including the canonical trailing-Z UTC form — to its wall-clock
instant shifted by exactly 7 hours (25200 s), zone-free. -/
theorem to_th_iso_fallback_spec (t : Ts) :
    (parseIsoLenient t = none → to_th_iso t = .raw t)
    ∧ (∀ dt, parseIsoLenient t = some dt → to_th_iso t = .fmt (dt.secs + 25200))
    ∧ (∀ y mo d h mi s : Nat, (Ts.iso y mo d h mi s .zulu).valid = true →
        to_th_iso (.iso y mo d h mi s .zulu) = .fmt (encodeSecs y mo d h mi s + 25200))
    ∧ (∀ (store : List Row) (n : Nat) (r : Row),
        r ∈ histRows store n → parseIsoLenient r.ts = none →
        displayRow r ∈ api_history store n ∧ (displayRow r).ts = .raw r.ts) := by
  refine ⟨?_, ?_, ?_, ?_⟩
  · intro h; simp [to_th_iso, h]
  · intro dt h; simp [to_th_iso, h]
  · intro y mo d h mi s hv; simp [to_th_iso, parseIsoLenient, hv]
  · intro store n r hr hnone
    exact ⟨List.mem_map_of_mem _ hr, by simp [displayRow, to_th_iso, hnone]⟩

theorem to_th_iso_fallback_spec_witness :
    to_th_iso (Ts.junk "not-a-date") = .raw (Ts.junk "not-a-date") :=
  (to_th_iso_fallback_spec (Ts.junk "not-a-date")).1 rfl

/-- Any ingested timestamp is Python-truthy (the `or` fallback never yields
a falsy value), so reachable cache states never hit the falsy-`ts` branch
of `api_realtime`. -/
theorem tsFalsy_mqttTs (data : Payload) (now : Int) : tsFalsy (mqttTs data now) = false := by
  have hiso : tsFalsy (isoOfSecs now) = false := rfl
  cases h : data.ts with
  | none => simp [mqttTs, h, hiso]
  | some t =>
      cases hf : tsFalsy t with
      | true => simp [mqttTs, h, hf, hiso]
      | false => simp [mqttTs, h, hf]

/-- C3: over every reachable cache state (the cached timestamp, when
present, is truthy) and every evaluation instant, the realtime view reports
`stale = true` exactly when the slot is empty or the cached timestamp
parses to a naive wall-clock value more than 8 seconds before the instant;
stale responses zero all six numeric fields, fresh responses carry the
cached values (`None` read as 0), and the response always carries a
timestamp — the snapshot's when present, else the evaluation instant.  The
response is structurally total (`RTResp` is always fully populated). -/
theorem api_realtime_staleness_spec (cache : Option Row) (now : Int)
    (hts : ∀ s : Row, cache = some s → tsFalsy s.ts = false) :
    ((api_realtime cache now).stale = true ↔
      (cache = none ∨ ∃ s dt, cache = some s ∧ parseIsoLenient s.ts = some dt
          ∧ 8 < now - dt.secs))
    ∧ ((api_realtime cache now).stale = true →
        (api_realtime cache now).voltage = 0 ∧ (api_realtime cache now).current = 0
        ∧ (api_realtime cache now).power = 0 ∧ (api_realtime cache now).energy_kwh = 0
        ∧ (api_realtime cache now).frequency = 0 ∧ (api_realtime cache now).pf = 0)
    ∧ (∀ s : Row, cache = some s → (api_realtime cache now).stale = false →
        (api_realtime cache now).voltage = s.voltage.getD 0
        ∧ (api_realtime cache now).current = s.current.getD 0
        ∧ (api_realtime cache now).power = s.power.getD 0
        ∧ (api_realtime cache now).energy_kwh = s.energy_kwh.getD 0
        ∧ (api_realtime cache now).frequency = s.frequency.getD 0
        ∧ (api_realtime cache now).pf = s.pf.getD 0)
    ∧ (∀ s : Row, cache = some s → (api_realtime cache now).ts = to_th_iso s.ts)
    ∧ (cache = none → (api_realtime cache now).ts = to_th_iso (isoOfSecs now)) := by
  cases cache with
  | none =>
      refine ⟨?_, ?_, ?_, ?_, ?_⟩
      · simp [api_realtime, noDataResp]
      · intro _; exact ⟨rfl, rfl, rfl, rfl, rfl, rfl⟩
      · intro s hs; cases hs
      · intro s hs; cases hs
      · intro _; rfl
  | some snap =>
      have hfalsy : tsFalsy snap.ts = false := hts snap rfl
      cases hp : parseIsoLenient snap.ts with
      | none =>
          have hb0 : decide (8 < max 0 (now - now)) = false := by
            rw [decide_eq_false_iff_not]; omega
          refine ⟨?_, ?_, ?_, ?_, ?_⟩
          · constructor
            · intro h
              simp [api_realtime, hfalsy, hp, hb0] at h
            · rintro (h | ⟨s, dt', hs, hdt, _⟩)
              · cases h
              · cases hs; rw [hp] at hdt; cases hdt
          · intro h
            simp [api_realtime, hfalsy, hp, hb0] at h
          · intro s hs _
            cases hs
            refine ⟨?_, ?_, ?_, ?_, ?_, ?_⟩ <;> simp [api_realtime, hfalsy, hp, hb0]
          · intro s hs; cases hs; simp [api_realtime, hfalsy, hp]
          · intro h; cases h
      | some dt =>
          have hb : decide (8 < max 0 (now - dt.secs)) = decide (8 < now - dt.secs) :=
            decide_eq_decide.mpr (by omega)
          cases hc : decide (8 < now - dt.secs) with
          | true =>
              have hgt : 8 < now - dt.secs := of_decide_eq_true hc
              refine ⟨?_, ?_, ?_, ?_, ?_⟩
              · constructor
                · intro _
                  exact Or.inr ⟨snap, dt, rfl, hp, hgt⟩
                · intro _
                  simp [api_realtime, hfalsy, hp, hb, hc]
              · intro _
                refine ⟨?_, ?_, ?_, ?_, ?_, ?_⟩ <;> simp [api_realtime, hfalsy, hp, hb, hc]
              · intro s hs hstale
                cases hs
                simp [api_realtime, hfalsy, hp, hb, hc] at hstale
              · intro s hs; cases hs; simp [api_realtime, hfalsy, hp]
              · intro h; cases h
          | false =>
              have hle : ¬ 8 < now - dt.secs := of_decide_eq_false hc
              refine ⟨?_, ?_, ?_, ?_, ?_⟩
              · constructor
                · intro hstale
                  simp [api_realtime, hfalsy, hp, hb, hc] at hstale
                · rintro (h | ⟨s, dt', hs, hdt, hgt⟩)
                  · cases h
                  · cases hs; rw [hp] at hdt; cases hdt; exact absurd hgt hle
              · intro hstale
                simp [api_realtime, hfalsy, hp, hb, hc] at hstale
              · intro s hs _
                cases hs
                refine ⟨?_, ?_, ?_, ?_, ?_, ?_⟩ <;> simp [api_realtime, hfalsy, hp, hb, hc]
              · intro s hs; cases hs; simp [api_realtime, hfalsy, hp]
              · intro h; cases h

theorem api_realtime_staleness_spec_witness :
    (api_realtime none 0).stale = true :=
  ((api_realtime_staleness_spec none 0 (fun _ h => by cases h)).1).mpr (Or.inl rfl)

/-- C10: in the realtime view an absent (`None`) numeric field of the
cached reading is indistinguishable from a measured value of zero — the
responses for a `none` field and a `some 0` field are identical — and in a
fresh (non-stale) response every absent field is reported as 0. -/
theorem realtime_null_reads_as_zero (snap : Row) (now : Int) :
    (api_realtime (some { snap with voltage := none }) now
        = api_realtime (some { snap with voltage := some 0 }) now)
    ∧ (api_realtime (some { snap with current := none }) now
        = api_realtime (some { snap with current := some 0 }) now)
    ∧ (api_realtime (some { snap with power := none }) now
        = api_realtime (some { snap with power := some 0 }) now)
    ∧ (api_realtime (some { snap with energy_kwh := none }) now
        = api_realtime (some { snap with energy_kwh := some 0 }) now)
    ∧ (api_realtime (some { snap with frequency := none }) now
        = api_realtime (some { snap with frequency := some 0 }) now)
    ∧ (api_realtime (some { snap with pf := none }) now
        = api_realtime (some { snap with pf := some 0 }) now)
    ∧ ((api_realtime (some snap) now).stale = false →
        (snap.voltage = none → (api_realtime (some snap) now).voltage = 0)
        ∧ (snap.current = none → (api_realtime (some snap) now).current = 0)
        ∧ (snap.power = none → (api_realtime (some snap) now).power = 0)
        ∧ (snap.energy_kwh = none → (api_realtime (some snap) now).energy_kwh = 0)
        ∧ (snap.frequency = none → (api_realtime (some snap) now).frequency = 0)
        ∧ (snap.pf = none → (api_realtime (some snap) now).pf = 0)) := by
  cases hf : tsFalsy snap.ts with
  | true =>
      refine ⟨?_, ?_, ?_, ?_, ?_, ?_, ?_⟩
      · simp [api_realtime, hf]
      · simp [api_realtime, hf]
      · simp [api_realtime, hf]
      · simp [api_realtime, hf]
      · simp [api_realtime, hf]
      · simp [api_realtime, hf]
      · intro hstale
        simp [api_realtime, hf, noDataResp] at hstale
  | false =>
      refine ⟨?_, ?_, ?_, ?_, ?_, ?_, ?_⟩
      · cases hp : parseIsoLenient snap.ts <;> simp [api_realtime, hf, hp]
      · cases hp : parseIsoLenient snap.ts <;> simp [api_realtime, hf, hp]
      · cases hp : parseIsoLenient snap.ts <;> simp [api_realtime, hf, hp]
      · cases hp : parseIsoLenient snap.ts <;> simp [api_realtime, hf, hp]
      · cases hp : parseIsoLenient snap.ts <;> simp [api_realtime, hf, hp]
      · cases hp : parseIsoLenient snap.ts <;> simp [api_realtime, hf, hp]
      · intro _
        refine ⟨?_, ?_, ?_, ?_, ?_, ?_⟩ <;>
          · intro hnone
            cases hp : parseIsoLenient snap.ts <;>
              simp [api_realtime, hf, hp, hnone]

theorem realtime_null_reads_as_zero_witness :
    (api_realtime (some { sampleRow with voltage := none })
        (encodeSecs 2024 1 5 10 0 0)).voltage = 0 := by
  have h := (realtime_null_reads_as_zero { sampleRow with voltage := none }
    (encodeSecs 2024 1 5 10 0 0)).2.2.2.2.2.2
  exact (h (by decide)).1 rfl

/-- C5: for every store state whose timestamps are parseable stored-UTC
instants and every count `k`, the history query returns at most `k`
records; the selected rows are drawn from the store, are chronologically
ascending (in the stored-text order SQLite sorts by), and form a suffix in
time — every row left out is no later than every row returned; each
returned timestamp is the stored instant shifted by a constant 7 hours
(25200 s), formatted without zone suffix. -/
theorem api_history_spec (store : List Row) (k : Nat)
    (hutc : ∀ r ∈ store, ∃ dt, parseIsoLenient r.ts = some dt
        ∧ (dt.off = none ∨ dt.off = some 0)) :
    (api_history store k).length ≤ k
    ∧ List.Sorted (fun a b : Row => tsKey a ≤ tsKey b) (histRows store k)
    ∧ (∀ r ∈ histRows store k, r ∈ store)
    ∧ (∃ dropped : List Row,
        List.Perm ((histRows store k).reverse ++ dropped) store
        ∧ ∀ a ∈ dropped, ∀ b ∈ histRows store k, tsKey a ≤ tsKey b)
    ∧ (∀ d ∈ api_history store k, ∃ r, r ∈ store ∧ d = displayRow r
        ∧ ∃ dt, parseIsoLenient r.ts = some dt ∧ d.ts = .fmt (dt.secs + 25200)) := by
  have hperm : List.Perm (List.insertionSort histDescRel store) store :=
    List.perm_insertionSort _ _
  have hsorted : List.Sorted histDescRel (List.insertionSort histDescRel store) :=
    List.sorted_insertionSort _ _
  have htake : List.Sorted histDescRel ((List.insertionSort histDescRel store).take k) :=
    hsorted.sublist (List.take_sublist _ _)
  have hmemstore : ∀ r ∈ histRows store k, r ∈ store := by
    intro r hr
    rw [histRows, List.mem_reverse] at hr
    exact hperm.subset (List.take_subset _ _ hr)
  refine ⟨?_, ?_, hmemstore, ?_, ?_⟩
  · simp only [api_history, List.length_map, histRows, List.length_reverse, List.length_take]
    omega
  · rw [histRows]
    exact List.pairwise_reverse.mpr htake
  · refine ⟨(List.insertionSort histDescRel store).drop k, ?_, ?_⟩
    · rw [histRows, List.reverse_reverse, List.take_append_drop]
      exact hperm
    · intro a ha b hb
      rw [histRows, List.mem_reverse] at hb
      exact hsorted.rel_of_mem_take_of_mem_drop hb ha
  · intro d hd
    rw [api_history, List.mem_map] at hd
    obtain ⟨r, hr, rfl⟩ := hd
    obtain ⟨dt, hdt, _⟩ := hutc r (hmemstore r hr)
    exact ⟨r, hmemstore r hr, rfl, dt, hdt, by simp [displayRow, to_th_iso, hdt]⟩

theorem api_history_spec_witness :
    (api_history [sampleRow] 1).length ≤ 1 := by
  refine (api_history_spec [sampleRow] 1 ?_).1
  intro r hr
  rw [List.mem_singleton] at hr
  subst hr
  exact ⟨⟨encodeSecs 2024 1 5 10 0 0, none⟩, rfl, Or.inl rfl⟩

/-- `minRowBy` succeeds on any non-empty list. -/
theorem minRowBy_cons_isSome (a : Row) (as : List Row) :
    ∃ r, minRowBy (a :: as) = some r := by
  simp only [minRowBy]
  cases minRowBy as with
  | none => exact ⟨a, rfl⟩
  | some m =>
      by_cases h : tsKey m < tsKey a
      · refine ⟨m, ?_⟩
        change (if tsKey m < tsKey a then some m else some a) = some m
        rw [if_pos h]
      · refine ⟨a, ?_⟩
        change (if tsKey m < tsKey a then some m else some a) = some a
        rw [if_neg h]

/-- `minRowBy` returns a member of the list attaining the minimal stored
timestamp text. -/
theorem minRowBy_spec : ∀ {l : List Row} {r : Row}, minRowBy l = some r →
    r ∈ l ∧ ∀ x ∈ l, tsKey r ≤ tsKey x := by
  intro l
  induction l with
  | nil => intro r h; cases h
  | cons a as ih =>
      intro r h
      simp only [minRowBy] at h
      cases hm : minRowBy as with
      | none =>
          rw [hm] at h
          cases h
          have hasnil : as = [] := by
            cases as with
            | nil => rfl
            | cons b bs =>
                obtain ⟨r', hr'⟩ := minRowBy_cons_isSome b bs
                rw [hr'] at hm
                cases hm
          subst hasnil
          refine ⟨List.mem_singleton_self a, ?_⟩
          intro x hx
          rw [List.mem_singleton] at hx
          subst hx
          exact le_refl _
      | some m =>
          rw [hm] at h
          change (if tsKey m < tsKey a then some m else some a) = some r at h
          obtain ⟨hmem, hmin⟩ := ih hm
          by_cases hlt : tsKey m < tsKey a
          · rw [if_pos hlt] at h
            cases h
            refine ⟨List.mem_cons_of_mem _ hmem, ?_⟩
            intro x hx
            rcases List.mem_cons.mp hx with rfl | hx'
            · exact le_of_lt hlt
            · exact hmin x hx'
          · rw [if_neg hlt] at h
            cases h
            refine ⟨List.mem_cons_self _ _, ?_⟩
            intro x hx
            rcases List.mem_cons.mp hx with rfl | hx'
            · exact le_refl _
            · exact le_trans (le_of_not_lt hlt) (hmin x hx')

/-- When every listed day has a bucket, the buckets' `day` column lists the
days verbatim. -/
theorem map_day_filterMap (fr : List Row) :
    ∀ l : List String, (∀ d ∈ l, ∃ b, bucketOf fr d = some b ∧ b.day = d) →
      (l.filterMap (bucketOf fr)).map DayBucket.day = l := by
  intro l
  induction l with
  | nil => intro _; rfl
  | cons d ds ih =>
      intro h
      obtain ⟨b, hb, hday⟩ := h d (List.mem_cons_self _ _)
      simp only [List.filterMap_cons, hb, List.map_cons, hday]
      rw [ih (fun x hx => h x (List.mem_cons_of_mem _ hx))]

/-- Every day of the filtered set owns a bucket, whose `day` field is that
day. -/
theorem bucketOf_isSome_of_mem (fr : List Row) (d : String)
    (hd : ∃ r ∈ fr, sqlDate r.ts = some d) :
    ∃ b, bucketOf fr d = some b ∧ b.day = d := by
  obtain ⟨r, hr, hdate⟩ := hd
  have hrday : r ∈ dayRowsOf fr d := by
    rw [dayRowsOf, List.mem_filter]
    exact ⟨hr, by simp [hdate]⟩
  cases hdr : dayRowsOf fr d with
  | nil => rw [hdr] at hrday; cases hrday
  | cons a as =>
      obtain ⟨rep, hrep⟩ := minRowBy_cons_isSome a as
      have hbo : bucketOf fr d
          = some { day := d, ts := to_th_iso rep.ts, voltage := rep.voltage,
                   current := rep.current, power := rep.power,
                   energy_kwh := rep.energy_kwh, frequency := rep.frequency,
                   pf := rep.pf } := by
        rw [bucketOf, hdr, hrep, Option.map_some']
      exact ⟨_, hbo, rfl⟩

/-- C4: for every store state and requested (year, month), the monthly
query returns one bucket per UTC calendar day of that month having at least
one row (an empty month yields the empty sequence), ordered ascending by
day; each bucket's timestamp is the minimal stored timestamp text of that
day (display converted), and the bucket's numeric columns come from a row
attaining that minimum, not from an arbitrary row of the day. -/
theorem api_monthly_spec (store : List Row) (y : Int) (m : Nat) :
    (store.filter (monthFilter y m) = [] → api_monthly store y m = [])
    ∧ List.Sorted (· ≤ ·) ((api_monthly store y m).map DayBucket.day)
    ∧ ((api_monthly store y m).map DayBucket.day).Nodup
    ∧ (∀ d : String, d ∈ (api_monthly store y m).map DayBucket.day ↔
        ∃ r, r ∈ store ∧ monthFilter y m r = true ∧ sqlDate r.ts = some d)
    ∧ (∀ b ∈ api_monthly store y m, ∃ r, r ∈ store ∧ monthFilter y m r = true
        ∧ sqlDate r.ts = some b.day ∧ b.ts = to_th_iso r.ts
        ∧ b.voltage = r.voltage ∧ b.current = r.current ∧ b.power = r.power
        ∧ b.energy_kwh = r.energy_kwh ∧ b.frequency = r.frequency ∧ b.pf = r.pf
        ∧ (∀ r', r' ∈ store → monthFilter y m r' = true → sqlDate r'.ts = some b.day →
            tsKey r ≤ tsKey r')) := by
  have hdays : ∀ d ∈ (List.insertionSort (α := String) (· ≤ ·)
      ((store.filter (monthFilter y m)).filterMap fun r => sqlDate r.ts)).dedup,
      ∃ b, bucketOf (store.filter (monthFilter y m)) d = some b ∧ b.day = d := by
    intro d hd
    rw [List.mem_dedup, List.mem_insertionSort, List.mem_filterMap] at hd
    exact bucketOf_isSome_of_mem _ d hd
  have hmap : (api_monthly store y m).map DayBucket.day
      = (List.insertionSort (α := String) (· ≤ ·)
          ((store.filter (monthFilter y m)).filterMap fun r => sqlDate r.ts)).dedup :=
    map_day_filterMap _ _ hdays
  refine ⟨?_, ?_, ?_, ?_, ?_⟩
  · intro h
    simp [api_monthly, h]
  · rw [hmap]
    exact (List.sorted_insertionSort _ _).sublist (List.dedup_sublist _)
  · rw [hmap]
    exact List.nodup_dedup _
  · intro d
    rw [hmap, List.mem_dedup, List.mem_insertionSort, List.mem_filterMap]
    constructor
    · rintro ⟨r, hr, hdate⟩
      rw [List.mem_filter] at hr
      exact ⟨r, hr.1, hr.2, hdate⟩
    · rintro ⟨r, hr, hf, hdate⟩
      exact ⟨r, List.mem_filter.mpr ⟨hr, hf⟩, hdate⟩
  · intro b hb
    rw [api_monthly, List.mem_filterMap] at hb
    obtain ⟨d, _, hbd⟩ := hb
    rw [bucketOf] at hbd
    cases hrep : minRowBy (dayRowsOf (store.filter (monthFilter y m)) d) with
    | none => rw [hrep] at hbd; cases hbd
    | some rep =>
        rw [hrep, Option.map_some'] at hbd
        cases hbd
        obtain ⟨hmem, hmin⟩ := minRowBy_spec hrep
        rw [dayRowsOf, List.mem_filter] at hmem
        obtain ⟨hfr, hdq⟩ := hmem
        have hdate : sqlDate rep.ts = some d := by
          simpa using hdq
        rw [List.mem_filter] at hfr
        refine ⟨rep, hfr.1, hfr.2, hdate, rfl, rfl, rfl, rfl, rfl, rfl, rfl, ?_⟩
        intro r' hr' hf' hdate'
        have : r' ∈ dayRowsOf (store.filter (monthFilter y m)) d := by
          rw [dayRowsOf, List.mem_filter]
          exact ⟨List.mem_filter.mpr ⟨hr', hf'⟩, by simp [hdate']⟩
        exact hmin r' this

theorem api_monthly_spec_witness : api_monthly [] 2024 1 = [] :=
  (api_monthly_spec [] 2024 1).1 rfl

end ReadMeter
